import Mathlib

/-!
Verification development for the grobidclient repository (Go).

The development shallowly embeds the parts of the code that the checked
properties are about:

* `Tei` — the TEI-XML parsing package (`tei/parse.go`), built on the
  beevik/etree v1.4.1 library.  XML documents are modelled as a tree of
  elements and character-data nodes; the etree path queries used by the
  source (`.//tag`, `.//tag[@attr="v"]`, `[namespace-uri()="v"]`,
  `[tag="v"]`, two-segment paths) are translated one by one, preserving
  etree's semantics: the descendant axis enumerates elements in
  breadth-first (queue) order, a `[tag="v"]` filter keeps elements having
  a child element with that tag and text, `[namespace-uri()="v"]` compares
  the element's resolved namespace URI, and tag selection ignores the
  namespace prefix.

* `Client` — the directory-processing pipeline (`client.go`).  The
  concurrent worker pool is serialized: the walk produces the dispatched
  paths in order, and each dispatched path is processed exactly as one
  worker iteration does (skip check, submission, synthetic failure
  result, handler invocation).  External effects (content sniffing,
  os.Stat, the HTTP submission, the result handler) are parameters of the
  model.

Recursions over the tree use explicit fuel (`sizeOf` of the input, a
strict bound on the recursion depth needed) so that every definition is
structurally recursive and evaluates by kernel reduction.
-/

namespace Grobid

/-- Model of Go `strings.TrimSpace` over a character list: leading and
trailing whitespace dropped (ASCII whitespace; the repository's inputs
do not rely on the wider Unicode space classes). -/
def trimSpaceL (l : List Char) : List Char :=
  ((l.dropWhile Char.isWhitespace).reverse.dropWhile Char.isWhitespace).reverse

/-- Model of Go `strings.TrimSpace` on strings. -/
def trimStr (s : String) : String :=
  String.mk (trimSpaceL s.data)

/-- Model of Go `strings.HasSuffix` (when the candidate suffix is longer
than the string, the comparison fails by itself). -/
def hasSuffixStr (s suffix : String) : Bool :=
  s.data.drop (s.data.length - suffix.data.length) == suffix.data

/-- Model of Go `strings.HasPrefix`. -/
def hasPrefixStr (s pre : String) : Bool :=
  s.data.take pre.data.length == pre.data

/-- Model of Go `strings.ToLower` (ASCII case mapping suffices for the
extension checks it is used in). -/
def toLowerStr (s : String) : String :=
  String.mk (s.data.map Char.toLower)

/-- Model of Go `strings.Split` for a single-character separator: the
final segment is the unterminated remainder (possibly empty). -/
def splitOnCharL (sep : Char) : List Char → List (List Char)
  | [] => [[]]
  | c :: rest =>
    if c = sep then [] :: splitOnCharL sep rest
    else
      match splitOnCharL sep rest with
      | [] => [[c]]
      | h :: t => (c :: h) :: t

/-- String-level wrapper of `splitOnCharL`. -/
def splitOnStr (sep : Char) (s : String) : List String :=
  (splitOnCharL sep s.data).map String.mk

/-- Model of Go `strings.Contains` (ASCII inputs, so byte positions and
character positions coincide). -/
def containsStr (s sub : String) : Bool :=
  (List.range (s.data.length + 1)).any
    (fun i => (s.data.drop i).take sub.data.length == sub.data)

/-- Model of Go `strings.Replace(s, old, new, 1)`: replace the first
occurrence of `old`, if any. -/
def replaceFirstStr (s old new : String) : String :=
  match (List.range (s.data.length + 1)).find?
      (fun i => (s.data.drop i).take old.data.length == old.data) with
  | none => s
  | some i => String.mk (s.data.take i ++ new.data ++ s.data.drop (i + old.data.length))

namespace Tei

/-- TEI namespace URI constant `NS` from `tei/parse.go`. -/
def NS : String := "http://www.tei-c.org/ns/1.0"

/-- Attribute of an XML element: prefix (etree `Attr.Space`), local key
(`Attr.Key`) and value. -/
structure XAttr where
  space : String
  key : String
  value : String
deriving Repr, DecidableEq

mutual

/-- Node of an etree document tree: character data, or an element with a
prefix (`Space`), local tag (`Tag`), resolved namespace URI (etree
resolves `xmlns` declarations; the model stores the resolved URI
directly), attributes and children.  Comments and processing
instructions are not modelled.  Children are a mutually defined list
(`XNodes`) so that all recursions are structural. -/
inductive XNode where
  | text (s : String)
  | elem (space tag nsURI : String) (attrs : List XAttr) (children : XNodes)

/-- List of XML nodes (mutually inductive with `XNode`). -/
inductive XNodes where
  | nil
  | cons (head : XNode) (tail : XNodes)

end

/-- Conversion of an `XNodes` children sequence into an ordinary list. -/
def XNodes.toList : XNodes → List XNode
  | .nil => []
  | .cons n t => n :: t.toList

/-- Construction of an `XNodes` children sequence from a list. -/
def XNodes.ofList : List XNode → XNodes
  | [] => .nil
  | n :: t => .cons n (XNodes.ofList t)

mutual

/-- Structural size of a node, used as recursion fuel: it strictly
exceeds the depth of the tree. -/
def nodeSize : XNode → Nat
  | .text _ => 1
  | .elem _ _ _ _ cs => 1 + nodesSize cs

/-- Structural size of a node sequence. -/
def nodesSize : XNodes → Nat
  | .nil => 1
  | .cons n t => 1 + nodeSize n + nodesSize t

end

/-- Size of a list of nodes, for fuel purposes. -/
def sizeNodes (l : List XNode) : Nat :=
  (l.map nodeSize).sum + 1

/-- Local tag of a node (empty for character data). -/
def tagOf : XNode → String
  | .text _ => ""
  | .elem _ t _ _ _ => t

/-- Children list of a node. -/
def childrenOf : XNode → List XNode
  | .text _ => []
  | .elem _ _ _ _ cs => cs.toList

/-- Attributes of a node. -/
def attrsOf : XNode → List XAttr
  | .text _ => []
  | .elem _ _ _ a _ => a

/-- Resolved namespace URI of a node. -/
def nsOf : XNode → String
  | .text _ => ""
  | .elem _ _ u _ _ => u

/-- Whether a node is an element. -/
def isElem : XNode → Bool
  | .text _ => false
  | .elem _ _ _ _ _ => true

/-- Element children of a node, in order. -/
def childElems (n : XNode) : List XNode :=
  (childrenOf n).filter isElem

/-- Character data immediately following a position in a children list,
up to the next element: models both etree `Element.Text()` (applied to
the whole children list) and `Element.Tail()` (applied to the suffix
after an element). -/
def textRun : List XNode → String
  | .text s :: rest => s ++ textRun rest
  | _ => ""

/-- Model of etree `Element.Text()`: concatenated character data before
the first child element. -/
def textOf (n : XNode) : String :=
  textRun (childrenOf n)

/-- Model of etree `Element.SelectAttr`: first attribute with the given
local key.  The query key carries no prefix, and etree's `spaceMatch`
then accepts an attribute with any prefix (this is how `id` finds
`xml:id`). -/
def selectAttr (n : XNode) (key : String) : Option XAttr :=
  (attrsOf n).find? (fun a => a.key == key)

/-- Model of etree `Element.SelectAttrValue`: value of the first
attribute with the given local key, or the default. -/
def selectAttrValue (n : XNode) (key dflt : String) : String :=
  match selectAttr n key with
  | some a => a.value
  | none => dflt

/-- Path filter `[@key="v"]` (etree `filterAttrVal`): the element has an
attribute with the given local key and value. -/
def attrEq (key val : String) (n : XNode) : Bool :=
  (attrsOf n).any (fun a => a.key == key && a.value == val)

/-- Path filter `[@key]` (etree `filterAttr`): the element has an
attribute with the given local key. -/
def hasAttr (key : String) (n : XNode) : Bool :=
  (attrsOf n).any (fun a => a.key == key)

/-- Path filter `[namespace-uri()="v"]` (etree `filterFuncVal` on the
namespace-uri function): the element's resolved namespace URI equals
`v`. -/
def nsUriEq (v : String) (n : XNode) : Bool :=
  nsOf n == v

/-- Children of a node with the given local tag (etree
`selectChildrenByTag` with an empty prefix, which matches any
namespace). -/
def childrenByTag (tag : String) (n : XNode) : List XNode :=
  (childrenOf n).filter (fun c => isElem c && tagOf c == tag)

/-- Path filter `[tag="v"]` written without parentheses (etree
`filterChildText`): the element has a child element with the given tag
whose `Text()` equals `v`.  This is the semantics etree gives the
filter `[namespace-uri="..."]` that `parseBiblio` and `parseEditor`
use (no parentheses, hence a child-tag filter, not the namespace
function). -/
def childTagTextEq (tag txt : String) (n : XNode) : Bool :=
  (childrenByTag tag n).any (fun c => textOf c == txt)

/-- Breadth-first enumeration of the elements of a forest, level by
level, mirroring etree's `selectDescendants` (a FIFO queue: the element
itself, then its element children appended to the back of the queue).
The fuel argument bounds the number of levels; it is instantiated with
`sizeOf`, which strictly exceeds the tree depth. -/
def bfsAllF : Nat → List XNode → List XNode
  | _, [] => []
  | 0, _ :: _ => []
  | f + 1, n :: rest => ((n :: rest).filter isElem)
      ++ bfsAllF f ((n :: rest).flatMap childElems)

/-- Breadth-first list of a forest's elements with adequate fuel. -/
def bfsAll (ns : List XNode) : List XNode :=
  bfsAllF (sizeNodes ns) ns

/-- Matches of the etree path `.//tag[pred]` evaluated from element `n`:
for each descendant-or-self candidate in breadth-first order, its
children with the tag that pass the filter. -/
def descMatches (n : XNode) (tag : String) (pred : XNode → Bool) : List XNode :=
  (bfsAll [n]).flatMap (fun d => (childrenByTag tag d).filter pred)

/-- Matches of the two-segment etree path `.//tag1[pred1]/tag2[pred2]`
from element `n`. -/
def descMatches2 (n : XNode) (tag1 : String) (pred1 : XNode → Bool)
    (tag2 : String) (pred2 : XNode → Bool) : List XNode :=
  (descMatches n tag1 pred1).flatMap (fun m => (childrenByTag tag2 m).filter pred2)

/-- Model of `FindElement(".//tag[pred]")`: first match. -/
def findElemDesc (n : XNode) (tag : String) (pred : XNode → Bool) : Option XNode :=
  (descMatches n tag pred).head?

/-- Model of `FindElement(".//tag1[pred1]/tag2[pred2]")`: first match. -/
def findElemDesc2 (n : XNode) (tag1 : String) (pred1 : XNode → Bool)
    (tag2 : String) (pred2 : XNode → Bool) : Option XNode :=
  (descMatches2 n tag1 pred1 tag2 pred2).head?

/-- Model of `findElementText` of `tei/parse.go` for a `.//tag[pred]`
path: the text of the first match, or the empty string. -/
def findElementText (n : XNode) (tag : String) (pred : XNode → Bool) : String :=
  match findElemDesc n tag pred with
  | none => ""
  | some e => textOf e

/-- Model of `findElementText` for a two-segment path. -/
def findElementText2 (n : XNode) (tag1 : String) (pred1 : XNode → Bool)
    (tag2 : String) (pred2 : XNode → Bool) : String :=
  match findElemDesc2 n tag1 pred1 tag2 pred2 with
  | none => ""
  | some e => textOf e

/-- Model of `findElementText` for a single-segment child path
(`./tag[pred]`). -/
def findChildText (n : XNode) (tag : String) (pred : XNode → Bool) : String :=
  match ((childrenByTag tag n).filter pred).head? with
  | none => ""
  | some e => textOf e

/-- Helper for `iterText`: traverses a children list, producing for each
element child its own `iterText` contribution followed by its tail text
(`Element.Tail()` reads the character data following the element inside
its parent, which the model recovers from the remainder of the children
list).  Fuel bounds the recursion depth; each recursive call moves
strictly later in the traversal, so `nodeSize`-based fuel is ample. -/
def iterTextListF : Nat → List XNode → List String
  | _, [] => []
  | 0, _ :: _ => []
  | f + 1, x :: rest =>
    match x with
    | .text _ => iterTextListF f rest
    | .elem _ _ _ _ _ =>
      (textOf x :: iterTextListF f (childrenOf x)) ++ [textRun rest]
        ++ iterTextListF f rest

/-- Model of `iterText` of `tei/parse.go`: the element's own text, all
child texts and tails recursively in document order, and finally the
element's own tail.  The start element is treated as detached, so its
own tail is the empty string (call sites in the repository pass
elements whose tail is whitespace, dropped by `iterTextTrimSpace`). -/
def iterText (n : XNode) : List String :=
  textOf n :: iterTextListF (nodeSize n) (childrenOf n) ++ [""]

/-- Model of `iterTextTrimSpace`: all fragments of `iterText`, trimmed,
with empty fragments dropped. -/
def iterTextTrimSpace (n : XNode) : List String :=
  ((iterText n).map trimStr).filter (fun c => c != "")

/-- Author record (`GrobidAuthor` of `tei/parse.go`).  Field names keep
the Go names. -/
structure GrobidAddress where
  AddrLine : String := ""
  PostCode : String := ""
  Settlement : String := ""
  Country : String := ""
deriving Repr, DecidableEq

/-- Affiliation record (`GrobidAffiliation`). -/
structure GrobidAffiliation where
  Institution : String := ""
  Department : String := ""
  Laboratory : String := ""
  Address : Option GrobidAddress := none
deriving Repr, DecidableEq

/-- Author record (`GrobidAuthor`). -/
structure GrobidAuthor where
  FullName : String := ""
  GivenName : String := ""
  MiddleName : String := ""
  Surname : String := ""
  Email : String := ""
  ORCID : String := ""
  Affiliation : Option GrobidAffiliation := none
deriving Repr, DecidableEq

/-- Bibliographic record (`GrobidBiblio`). -/
structure GrobidBiblio where
  Authors : List GrobidAuthor := []
  Index : Int := 0
  ID : String := ""
  Unstructured : String := ""
  Date : String := ""
  Title : String := ""
  BookTitle : String := ""
  SeriesTitle : String := ""
  Editors : List GrobidAuthor := []
  Journal : String := ""
  JournalAbbrev : String := ""
  Publisher : String := ""
  Institution : String := ""
  ISSN : String := ""
  EISSN : String := ""
  Volume : String := ""
  Issue : String := ""
  Pages : String := ""
  FirstPage : String := ""
  LastPage : String := ""
  Note : String := ""
  DOI : String := ""
  PMID : String := ""
  PMCID : String := ""
  ArxivID : String := ""
  PII : String := ""
  Ark : String := ""
  IsTexID : String := ""
  URL : String := ""
deriving Repr, DecidableEq

/-- Parsed document (`GrobidDocument`). -/
structure GrobidDocument where
  GrobidVersion : String := ""
  GrobidTs : String := ""
  Header : GrobidBiblio := {}
  PDFMD5 : String := ""
  LanguageCode : String := ""
  Citations : List GrobidBiblio := []
  Abstract : String := ""
  Body : String := ""
  Acknowledgement : String := ""
  Annex : String := ""
deriving Repr, DecidableEq

/-- Model of `anyString`: true if any of the strings is non-empty. -/
def anyString (vs : List String) : Bool :=
  vs.any (fun v => v != "")

/-- Model of `GrobidBiblio.IsEmpty` exactly as in `tei/parse.go`: no
authors, no editors, and the twelve listed fields all empty. -/
def GrobidBiblio.IsEmpty (g : GrobidBiblio) : Bool :=
  if g.Authors.length > 0 || g.Editors.length > 0 then false
  else !(anyString
    [g.Date, g.Title, g.Journal, g.Publisher, g.Volume, g.Issue,
     g.Pages, g.DOI, g.PMID, g.PMCID, g.ArxivID, g.URL])

/-- Model of `GrobidAffiliation.isEmpty`. -/
def GrobidAffiliation.isEmpty (g : GrobidAffiliation) : Bool :=
  g.Institution == "" && g.Department == "" && g.Laboratory == ""
    && g.Address == none

/-- Model of `cleanURL` of `tei/parse.go`. -/
def cleanURL (u : String) : String :=
  if u.length == 0 then u
  else
    let u1 := trimStr u
    let u2 := if hasSuffixStr u1 ".Lastaccessed"
      then replaceFirstStr u1 ".Lastaccessed" "" else u1
    let u3 := if hasPrefixStr u2 "<" then u2.drop 1 else u2
    if containsStr u3 ">" then (splitOnStr '>' u3).headD "" else u3

/-- Model of `parsePersName` (the Go function returns nil only for a nil
element, which callers rule out, so the model is total). -/
def parsePersName (n : XNode) : GrobidAuthor :=
  { FullName := String.intercalate " " (iterTextTrimSpace n)
    GivenName := findChildText n "forename" (attrEq "type" "first")
    MiddleName := findChildText n "forename" (attrEq "type" "middle")
    Surname := findChildText n "surname" (fun _ => true) }

/-- Switch body of the `orgName` loop of `parseAffiliation`: an
`orgName` child fills the field selected by its type attribute (the
last assignment per type wins); other types are skipped. -/
def orgNameStep (ga : GrobidAffiliation) (e : XNode) : GrobidAffiliation :=
  match selectAttrValue e "type" "" with
  | "institution" => { ga with Institution := textOf e }
  | "department" => { ga with Department := textOf e }
  | "laboratory" => { ga with Laboratory := textOf e }
  | _ => ga

/-- Accumulation of the `orgName` children over the zero-valued record,
the loop at the top of `parseAffiliation`. -/
def parseAffiliationOrg (n : XNode) : GrobidAffiliation :=
  (childrenByTag "orgName" n).foldl orgNameStep {}

/-- Model of `parseAffiliation` of `tei/parse.go`: the `orgName` loop,
then the emptiness check (which runs before the address is read), and
only then the optional `address` child. -/
def parseAffiliation (n : XNode) : Option GrobidAffiliation :=
  let ga := parseAffiliationOrg n
  if ga.isEmpty then none
  else
    match (childrenByTag "address" n).head? with
    | none => some ga
    | some addrTag =>
      let addr : GrobidAddress :=
        { AddrLine := findChildText addrTag "addrLine" (fun _ => true)
          PostCode := findChildText addrTag "postCode" (fun _ => true)
          Settlement := findChildText addrTag "settlement" (fun _ => true)
          Country := findChildText addrTag "country" (fun _ => true) }
      some { ga with Address := some addr }

/-- Model of `parseAuthor`: requires a `persName` child, then decorates
the person with ORCID, email and affiliation. -/
def parseAuthor (n : XNode) : Option GrobidAuthor :=
  match (childrenByTag "persName" n).head? with
  | none => none
  | some persNameTag =>
    let ga := parsePersName persNameTag
    some { ga with
      ORCID := findChildText n "idno" (attrEq "type" "ORCID")
      Email := findChildText n "email" (fun _ => true)
      Affiliation := match (childrenByTag "affiliation" n).head? with
        | none => ga.Affiliation
        | some affiliationTag => parseAffiliation affiliationTag }

/-- Model of `parseEditor`.  The Go source selects
`./persName[namespace-uri="NS"]`, a filter without parentheses, which
etree reads as a child-tag filter (a child element literally tagged
namespace-uri with text NS), not as the namespace function; the model
reproduces that with `childTagTextEq`.  Lengths in the bare-string
fallback are Go byte lengths. -/
def parseEditor (n : XNode) : List GrobidAuthor :=
  let persNameTags := (childrenByTag "persName" n).filter (childTagTextEq "namespace-uri" NS)
  if persNameTags.isEmpty then
    if (childElems n).isEmpty then
      let rawName := textOf n
      let trimmed := trimStr rawName
      if rawName.utf8ByteSize > 0 && trimmed.utf8ByteSize > 2 then
        [{ FullName := trimmed }]
      else []
    else []
  else persNameTags.map parsePersName

/-- Model of `parseBiblio` of `tei/parse.go`, field for field and rule
for rule in source order.  The editor queries keep the source's
parenthesis-free `namespace-uri` filters (child-tag filters in etree). -/
def parseBiblio (elem : XNode) : GrobidBiblio :=
  let authors := (descMatches elem "author" (fun _ => true)).filterMap parseAuthor
  let editorTags := descMatches elem "editor" (childTagTextEq "namespace-uri" NS)
  let contribEditorTags := descMatches elem "contributor" (attrEq "role" "editor")
  let editors := editorTags.flatMap parseEditor ++ contribEditorTags.flatMap parseEditor
  let biblio : GrobidBiblio :=
    { Authors := authors
      Editors := editors
      ID := selectAttrValue elem "id" ""
      Unstructured := findElementText elem "note" (attrEq "type" "raw_reference")
      Title := findElementText elem "title" (attrEq "type" "main")
      Journal := findElementText elem "title" (attrEq "level" "j")
      JournalAbbrev := findElementText elem "title"
        (fun e => attrEq "level" "j" e && attrEq "type" "abbrev" e)
      SeriesTitle := findElementText elem "title" (attrEq "level" "s")
      Publisher := findElementText2 elem "publicationStmt" (fun _ => true) "publisher" (fun _ => true)
      Institution := findElementText2 elem "respStmt" (fun _ => true) "orgName" (fun _ => true)
      Volume := findElementText elem "biblScope" (attrEq "unit" "volume")
      Issue := findElementText elem "biblScope" (attrEq "unit" "issue")
      DOI := findElementText elem "idno" (attrEq "type" "DOI")
      PMID := findElementText elem "idno" (attrEq "type" "PMID")
      PMCID := findElementText elem "idno" (attrEq "type" "PMCID")
      ArxivID := findElementText elem "idno" (attrEq "type" "arXiv")
      PII := findElementText elem "idno" (attrEq "type" "PII")
      Ark := findElementText elem "idno" (attrEq "type" "ark")
      IsTexID := findElementText elem "idno" (attrEq "type" "istexId")
      ISSN := findElementText elem "idno" (attrEq "type" "ISSN")
      EISSN := findElementText elem "idno" (attrEq "type" "eISSN") }
  let biblio := match findElemDesc elem "title" (attrEq "level" "m") with
    | some bookTitleTag =>
      if selectAttrValue bookTitleTag "type" "" == "" then
        { biblio with BookTitle := textOf bookTitleTag }
      else biblio
    | none => biblio
  let biblio := if biblio.BookTitle != "" && biblio.Title == "" then
      { biblio with Title := biblio.BookTitle, BookTitle := "" }
    else biblio
  let biblio := match findElemDesc elem "note" (fun _ => true) with
    | some noteTag =>
      if selectAttrValue noteTag "type" "" == "" then
        { biblio with Note := textOf noteTag }
      else biblio
    | none => biblio
  let biblio := if biblio.Publisher == "" then
      { biblio with Publisher :=
          findElementText2 elem "imprint" (fun _ => true) "publisher" (fun _ => true) }
    else biblio
  let biblio := match findElemDesc elem "date" (attrEq "type" "published") with
    | some dateTag => { biblio with Date := selectAttrValue dateTag "when" "" }
    | none => biblio
  let biblio := if biblio.ArxivID != "" && hasPrefixStr biblio.ArxivID "arXiv:" then
      { biblio with ArxivID := biblio.ArxivID.drop 6 }
    else biblio
  let biblio := match findElemDesc elem "biblScope" (attrEq "unit" "page") with
    | some el =>
      let fp := selectAttrValue el "from" ""
      let lp := selectAttrValue el "to" ""
      let b1 := { biblio with
        FirstPage := if fp != "" then fp else biblio.FirstPage
        LastPage := if lp != "" then lp else biblio.LastPage }
      { b1 with Pages :=
          if b1.FirstPage != "" && b1.LastPage != "" then
            b1.FirstPage ++ "-" ++ b1.LastPage
          else textOf el }
    | none => biblio
  let biblio := match findElemDesc elem "ptr" (hasAttr "target") with
    | some el => { biblio with URL := cleanURL (selectAttrValue el "target" "") }
    | none => biblio
  if biblio.DOI != "" && biblio.URL != ""
      && (containsStr biblio.URL "://doi.org/" || containsStr biblio.URL "://dx.doi.org/") then
    { biblio with URL := "" }
  else biblio

/-- Matches of a document-level `FindElements(".//tag")` query (called on
the etree Document in `ParseCitationList`): the virtual document node is
the first breadth-first candidate, so the root element itself is a match
when its tag fits, followed by the matching children of every
descendant-or-self candidate of the root in breadth-first order. -/
def docDescMatches (root : XNode) (tag : String) : List XNode :=
  (if tagOf root == tag then [root] else [])
    ++ (bfsAll [root]).flatMap (childrenByTag tag)

/-- Model of `ParseCitationList` of `tei/parse.go`.  The input models
the outcome of reading the (namespace-declaration-stripped) fragment
with etree: `none` when parsing failed or produced no root element.
Read errors are discarded by the source, so they are not part of the
model input. -/
def ParseCitationList (rootOpt : Option XNode) : List GrobidBiblio :=
  match rootOpt with
  | none => []
  | some root =>
    if tagOf root == "biblStruct" then [{ parseBiblio root with Index := 0 }]
    else (docDescMatches root "biblStruct").enum.map
      (fun p => { parseBiblio p.2 with Index := (p.1 : Int) })

/-- Error outcomes of `ParseDocument`: the reader's own syntax error
(returned verbatim by the source), the `ErrInvalidDocument` sentinel, or
the nil-pointer panic the source incurs when the application tag lacks a
`version` or `when` attribute. -/
inductive PDErr where
  | xmlSyntax (msg : String)
  | invalidDocument
  | nilAttrPanic
deriving Repr, DecidableEq

/-- Lookup of the TEI header, `tei.FindElement(".//teiHeader[namespace-uri()=NS]")`. -/
def findTeiHeader (tei : XNode) : Option XNode :=
  findElemDesc tei "teiHeader" (nsUriEq NS)

/-- Lookup of the processing-tool annotations,
`header.FindElements(".//appInfo[namespace-uri()=NS]/application[namespace-uri()=NS]")`. -/
def applicationTagsOf (header : XNode) : List XNode :=
  descMatches2 header "appInfo" (nsUriEq NS) "application" (nsUriEq NS)

/-- Model of `ParseDocument` of `tei/parse.go`.  The input models the
outcome of `etree.ReadFrom`: a syntax error message, or a document whose
root element may be absent (`none`, e.g. for plain text input). -/
def ParseDocument (input : Except String (Option XNode)) : Except PDErr GrobidDocument :=
  match input with
  | .error msg => .error (.xmlSyntax msg)
  | .ok none => .error .invalidDocument
  | .ok (some tei) =>
    match findTeiHeader tei with
    | none => .error .invalidDocument
    | some header =>
      match applicationTagsOf header with
      | [] => .error .invalidDocument
      | applicationTag :: _ =>
        match selectAttr applicationTag "version", selectAttr applicationTag "when" with
        | some vAttr, some wAttr =>
          let refs := (descMatches2 tei "listBibl" (fun _ => true) "biblStruct" (fun _ => true)).enum.map
            (fun p => { parseBiblio p.2 with Index := (p.1 : Int) })
          .ok
            { GrobidVersion := trimStr vAttr.value
              GrobidTs := trimStr wAttr.value
              Header := parseBiblio header
              PDFMD5 := findElementText header "idno" (attrEq "type" "MD5")
              LanguageCode := match findElemDesc tei "text" (fun _ => true) with
                | some textTag => selectAttrValue textTag "lang" ""
                | none => ""
              Citations := refs
              Abstract := match findElemDesc2 tei "profileDesc" (fun _ => true) "abstract" (fun _ => true) with
                | some el => String.intercalate " " (iterTextTrimSpace el)
                | none => ""
              Body := match findElemDesc2 tei "text" (fun _ => true) "body" (fun _ => true) with
                | some el => String.intercalate " " (iterTextTrimSpace el)
                | none => ""
              Acknowledgement := match findElemDesc2 tei "back" (fun _ => true) "div" (attrEq "type" "acknowledgement") with
                | some el => String.intercalate " " (iterTextTrimSpace el)
                | none => ""
              Annex := match findElemDesc2 tei "back" (fun _ => true) "div" (attrEq "type" "annex") with
                | some el => String.intercalate " " (iterTextTrimSpace el)
                | none => "" }
        | _, _ => .error .nilAttrPanic

end Tei

namespace Client

/-- Valid service names (`ValidServices` of `client.go`). -/
def ValidServices : List String :=
  ["processFulltextDocument",
   "processHeaderDocument",
   "processReferences",
   "processCitationList",
   "processCitationPatentST36",
   "processCitationPatentPDF"]

/-- Model of `IsValidService`. -/
def IsValidService (name : String) : Bool :=
  ValidServices.any (fun v => v == name)

/-- Output extension constant `DefaultExt`. -/
def DefaultExt : String := "grobid.tei.xml"

/-- Loop body of `parseLines` of `client.go`: `bufio.ReadString` returns
each segment up to and including a newline; at end of input the final
unterminated segment comes back together with `io.EOF` and the loop
breaks without appending it.  `acc` is the data buffered so far for the
current line. -/
def parseLinesAux (acc : List Char) : List Char → List String
  | [] => []
  | c :: rest =>
    if c = '\n' then
      let v := trimSpaceL (acc ++ [c])
      if v.length == 0 then parseLinesAux [] rest
      else String.mk v :: parseLinesAux [] rest
    else parseLinesAux (acc ++ [c]) rest

/-- Model of `parseLines`: trimmed, non-blank, newline-terminated lines
of the reader's content. -/
def parseLines (cs : List Char) : List String :=
  parseLinesAux [] cs

/-- Splitting a character list at newlines, the way `strings.Split`
would: the final segment is the unterminated remainder (possibly
empty).  This is the specification-side description of line structure,
used to state what `parseLines` returns. -/
def splitNl : List Char → List (List Char)
  | [] => [[]]
  | c :: rest =>
    if c = '\n' then [] :: splitNl rest
    else
      match splitNl rest with
      | [] => [[c]]
      | h :: t => (c :: h) :: t

/-- Specification-side description of the `parseLines` result, following
the claim's words: exactly the whitespace-trimmed, non-blank lines that
are terminated by a newline (the trailing unterminated segment is
dropped by `dropLast`). -/
def specLines (cs : List Char) : List String :=
  (((splitNl cs).dropLast).map (fun l => String.mk (trimSpaceL l))).filter
    (fun s => s != "")

/-- Model of `isXML`. -/
def isXML (filename : String) : Bool :=
  hasSuffixStr (toLowerStr filename) ".xml"

/-- Model of `isText`. -/
def isText (filename : String) : Bool :=
  hasSuffixStr (toLowerStr filename) ".txt"

/-- Scan for `path.Ext`: the input is the reversed path; the extension
is the suffix from the last dot inside the final slash-separated
component. -/
def extSearch (acc : List Char) : List Char → Option (List Char)
  | [] => none
  | '/' :: _ => none
  | '.' :: _ => some ('.' :: acc)
  | c :: rest => extSearch (c :: acc) rest

/-- Model of Go `path.Ext`. -/
def pathExt (p : String) : String :=
  match extSearch [] p.data.reverse with
  | none => ""
  | some l => String.mk l

/-- Model of `strings.TrimSuffix`. -/
def trimSuffix (s suffix : String) : String :=
  if hasSuffixStr s suffix then s.dropRight suffix.length else s

/-- Model of `withoutExt` of `client.go`. -/
def withoutExt (filepath : String) : String :=
  trimSuffix filepath (pathExt filepath)

/-- Model of Go `path.Base`: empty path gives a dot, trailing slashes
are stripped, then the final component is taken. -/
def pathBase (p : String) : String :=
  if p == "" then "."
  else
    let stripped := ((p.data.reverse.dropWhile (fun c => c == '/'))).reverse
    if stripped == [] then "/"
    else String.mk ((stripped.reverse.takeWhile (fun c => c != '/')).reverse)

/-- Segment step of Go `path.Clean`'s lexical algorithm: empty and dot
segments vanish, a dot-dot segment pops a previous real segment (or is
kept when there is nothing to pop in a relative path, or vanishes at
the root), and any other segment is pushed.  The stack holds segments
in reverse order. -/
def cleanPush (rooted : Bool) (stack : List String) (seg : String) : List String :=
  match seg with
  | "" => stack
  | "." => stack
  | ".." =>
    match stack with
    | [] => if rooted then [] else [".."]
    | top :: rest => if top == ".." then ".." :: top :: rest else rest
  | s => s :: stack

/-- Model of Go `path.Clean` (lexical normalization used by
`path.Join`), expressed over slash-separated segments. -/
def pathClean (p : String) : String :=
  if p == "" then "."
  else
    let rooted := hasPrefixStr p "/"
    let stack := (splitOnStr '/' p).foldl (cleanPush rooted) []
    let body := String.intercalate "/" stack.reverse
    if rooted then (if body == "" then "/" else "/" ++ body)
    else (if body == "" then "." else body)

/-- Model of Go `path.Join` for two components: empty components are
skipped and the slash-joined rest is cleaned. -/
def pathJoin (a b : String) : String :=
  if a == "" && b == "" then ""
  else if a == "" then pathClean b
  else if b == "" then pathClean a
  else pathClean (a ++ "/" ++ b)

/-- Directory-processing options (`Options` of `client.go`).  Only the
fields the directory pipeline consults are modelled; the remaining
fields are request flags forwarded to the server. -/
structure Options where
  Force : Bool := false
  Verbose : Bool := false
  OutputDir : String := ""
deriving Repr, DecidableEq

/-- Model of `outputFilename` of `client.go`. -/
def outputFilename (filepath : String) (opts : Options) : String :=
  if opts.OutputDir == "" then withoutExt filepath ++ "." ++ DefaultExt
  else pathJoin opts.OutputDir (withoutExt (pathBase filepath) ++ "." ++ DefaultExt)

/-- Per-file processing result (`Result` of `client.go`).  The
`ProcessingTime` field is wall-clock time and is not modelled. -/
structure Result where
  Filename : String := ""
  SHA1Hex : String := ""
  StatusCode : Int := 0
  Body : String := ""
  Err : Option String := none
deriving Repr, DecidableEq

/-- Outcome of one call of the submission capability (`ProcessPDF` or
`ProcessText`): these return exactly one of a non-nil result or a
non-nil error. -/
inductive SubmitOut where
  | ok (r : Result)
  | fail (msg : String)
deriving Repr, DecidableEq

/-- External collaborators of the directory pipeline: content sniffing
(`isPDF` uses `mimetype.DetectFile`, an I/O operation, falling back to
the extension on error — the oracle captures the resulting boolean),
`os.Stat` existence checks, the two submission capabilities, and the
result-handler callback `rf` (returning `some msg` models a non-nil
error). -/
structure Env where
  isPDFFile : String → Bool
  fileExists : String → Bool
  submitPDF : String → SubmitOut
  submitText : String → SubmitOut
  handler : Result → Options → Option String

/-- Model of `isAlreadyProcessed`: the computed output artifact exists. -/
def isAlreadyProcessed (env : Env) (path : String) (opts : Options) : Bool :=
  env.fileExists (outputFilename path opts)

/-- One event of the `filepath.Walk` traversal: either the walk callback
receives an error (which aborts the walk), or it visits an entry. -/
inductive WalkItem where
  | fail (msg : String)
  | entry (path : String) (isDir : Bool)
deriving Repr, DecidableEq

/-- Eligibility switch of the walk callback in `ProcessDirRecursive`:
hardcoded service-to-filetype rules; everything else is skipped. -/
def dispatchOk (env : Env) (service : String) (path : String) : Bool :=
  (service == "processFulltextDocument" && env.isPDFFile path)
    || (service == "processCitationList" && isText path)
    || (service == "processCitationPatentST36" && isXML path)

/-- The walk of `ProcessDirRecursive`: directories are skipped, eligible
files are dispatched in visit order, and a callback error aborts the
walk, which `ProcessDirRecursive` then returns. -/
def walkCollect (env : Env) (service : String) : List WalkItem → Except String (List String)
  | [] => .ok []
  | .fail msg :: _ => .error msg
  | .entry path isDir :: rest =>
    if isDir then walkCollect env service rest
    else if dispatchOk env service path then
      match walkCollect env service rest with
      | .error e => .error e
      | .ok ps => .ok (path :: ps)
    else walkCollect env service rest

/-- Submission capability selected by the worker body: `ProcessText` for
the citation-list service, `ProcessPDF` otherwise. -/
def submitFor (env : Env) (service : String) (path : String) : SubmitOut :=
  if service == "processCitationList" then env.submitText path
  else env.submitPDF path

/-- Result passed to the handler for a dispatched path: the submission's
result, or — when the submission returned a nil result — the synthetic
failed result with status code `-1` and the wrapped error. -/
def resultFor (env : Env) (service : String) (path : String) : Result :=
  match submitFor env service path with
  | .ok r => r
  | .fail msg =>
    { Filename := path
      StatusCode := -1
      Err := some ("process failed: " ++ msg) }

/-- Worker body of `ProcessDirRecursive` for one dequeued path: skip
when the output artifact exists and force is unset; otherwise submit,
build the (possibly synthetic) result, and invoke the handler once,
collecting its error. -/
def processPath (env : Env) (service : String) (opts : Options) (path : String) :
    Option (Result × Option String) :=
  if isAlreadyProcessed env path opts && !opts.Force then none
  else
    let result := resultFor env service path
    some (result, env.handler result opts)

/-- Serialized worker pool: every dispatched path is processed by the
worker body exactly once.  The worker count only changes the
interleaving; the multiset of outcomes is schedule-independent, so the
model lists them in dispatch order. -/
def runPaths (env : Env) (service : String) (opts : Options) (paths : List String) :
    List (String × Option (Result × Option String)) :=
  paths.map (fun p => (p, processPath env service opts p))

/-- Results passed to the handler, in dispatch order. -/
def handledOf (tr : List (String × Option (Result × Option String))) : List Result :=
  tr.filterMap (fun x => x.2.map (fun y => y.1))

/-- Paths for which the submission capability was invoked. -/
def submittedOf (tr : List (String × Option (Result × Option String))) : List String :=
  tr.filterMap (fun x => match x.2 with | some _ => some x.1 | none => none)

/-- Non-nil handler errors collected through the error channel, the
`errList` the aggregator builds. -/
def handlerErrsOf (tr : List (String × Option (Result × Option String))) : List String :=
  tr.filterMap (fun x => x.2.bind (fun y => y.2))

/-- Model of `ProcessDirRecursive` of `client.go`.  A walk error is
returned as-is; otherwise `errors.Join` of the collected handler errors
is returned when there are any (modelled as `some` of the full error
list, since `errors.Join` keeps every joined error recoverable through
its Unwrap method), and nil (`none`) otherwise.  The worker count does
not influence the outcomes and is unused by the serialized model. -/
def ProcessDirRecursive (env : Env) (walk : List WalkItem) (service : String)
    (numWorkers : Nat) (opts : Options) : Except String (Option (List String)) :=
  match walkCollect env service walk with
  | .error e => .error e
  | .ok paths =>
    let errList := handlerErrsOf (runPaths env service opts paths)
    .ok (if errList.length > 0 then some errList else none)

end Client

namespace Tei

/-- Pre-order (document-order) enumeration of the elements of a forest,
the specification-side notion of document order used to compare against
the breadth-first scan.  Fuel bounds the recursion depth. -/
def dfsNodesF : Nat → List XNode → List XNode
  | 0, _ => []
  | _, [] => []
  | f + 1, n :: rest =>
    (if isElem n then [n] else []) ++ dfsNodesF f (childrenOf n) ++ dfsNodesF f rest

/-- Strict descendants of an element in document order (pre-order). -/
def docOrderDesc (root : XNode) : List XNode :=
  dfsNodesF (nodeSize root) (childrenOf root)

/-- Example fragment: a bibliography structure nested one level deep
(inside a wrapper, document-order first) followed by a top-level one. -/
def bsXC7 : XNode := .elem "" "biblStruct" "" [⟨"", "id", "x"⟩] .nil

/-- Wrapper element containing `bsXC7`. -/
def wrapC7 : XNode := .elem "" "a" "" [] (.cons bsXC7 .nil)

/-- Top-level bibliography structure, second in document order. -/
def bsYC7 : XNode := .elem "" "biblStruct" "" [⟨"", "id", "y"⟩] .nil

/-- Root of the nested-citation example fragment. -/
def refsC7 : XNode := .elem "" "refs" "" [] (.cons wrapC7 (.cons bsYC7 .nil))

/-- Affiliation node that supplies only an address (no orgName). -/
def affC9 : XNode :=
  .elem "" "affiliation" "" []
    (.cons (.elem "" "address" "" []
      (.cons (.elem "" "settlement" "" [] (.cons (.text "Berlin") .nil)) .nil)) .nil)

/-- Dedicated editor node holding a bare name string. -/
def editorBareC8 : XNode := .elem "" "editor" "" [] (.cons (.text "John Smith") .nil)

/-- Structured person-name node in the TEI namespace. -/
def persNameC8 : XNode :=
  .elem "" "persName" NS [] (.cons (.elem "" "surname" NS [] (.cons (.text "Smith") .nil)) .nil)

/-- Dedicated editor node holding a structured person name. -/
def editorStructuredC8 : XNode := .elem "" "editor" NS [] (.cons persNameC8 .nil)

/-- Bibliography structure carrying both kinds of dedicated editor
node. -/
def bsC8 : XNode :=
  .elem "" "biblStruct" "" [] (.cons editorStructuredC8 (.cons editorBareC8 .nil))

/-- Processing-tool annotation with version and timestamp attributes. -/
def applicationC2 : XNode :=
  .elem "" "application" NS [⟨"", "version", "0.7.3"⟩, ⟨"", "when", "2024-01-01"⟩] .nil

/-- Application-information container of the example header. -/
def appInfoC2 : XNode := .elem "" "appInfo" NS [] (.cons applicationC2 .nil)

/-- Minimal valid TEI header. -/
def teiHeaderC2 : XNode := .elem "" "teiHeader" NS [] (.cons appInfoC2 .nil)

/-- Minimal valid TEI document root with zero citations. -/
def teiC2 : XNode := .elem "" "TEI" NS [] (.cons teiHeaderC2 .nil)

end Tei

namespace Client

/-- Environment for the directory-pipeline examples: extension-based PDF
sniffing, no pre-existing artifacts, a submission that fails for
`b.pdf` and succeeds otherwise, and a handler that never fails. -/
def envC1 : Env :=
  { isPDFFile := fun p => hasSuffixStr p ".pdf"
    fileExists := fun _ => false
    submitPDF := fun p =>
      if p == "b.pdf" then .fail "connection refused"
      else .ok { Filename := p, StatusCode := 200, Body := "tei" }
    submitText := fun p => .ok { Filename := p, StatusCode := 200 }
    handler := fun _ _ => none }

/-- Walk with one directory, two PDFs and one non-matching file. -/
def walkC1 : List WalkItem :=
  [.entry "x" true, .entry "a.pdf" false, .entry "notes.txt" false, .entry "b.pdf" false]

/-- Environment whose handler fails for `b.pdf`. -/
def envC3 : Env :=
  { envC1 with handler := fun r _ => if r.Filename == "b.pdf" then some "write failed: b" else none }

/-- Walk with a single PDF file. -/
def walkC4 : List WalkItem := [.entry "a.pdf" false]

/-- Environment in which the output artifact for `a.pdf` already
exists. -/
def envC6 : Env := { envC1 with fileExists := fun s => s == "a.grobid.tei.xml" }

/-- Go `DefaultOptions` restricted to the modelled fields: force unset,
not verbose, output written beside the input. -/
def DefaultOptions : Options := {}

/-- Prefixing of buffered data onto the first segment of a split; it
relates the `parseLines` loop state to the line structure of the whole
input. -/
def consFirst (acc : List Char) : List (List Char) → List (List Char)
  | [] => [acc]
  | h :: t => (acc ++ h) :: t

/-- Specification-side lines of the remaining input when `acc` is
already buffered for the current line. -/
def specLinesFrom (acc cs : List Char) : List String :=
  (((consFirst acc (splitNl cs)).dropLast).map (fun l => String.mk (trimSpaceL l))).filter
    (fun s => s != "")

end Client

end Grobid


namespace Grobid

namespace Tei

/-- Claim C5 (counterexample): a biblio record whose only content is a
book title is reported empty by `IsEmpty`, although the claim's
enumeration requires `IsEmpty` to be false when any descriptive field —
bookTitle included — is non-empty. -/
theorem isEmpty_bookTitle_counterexample :
    ({ BookTitle := "Some Book" } : GrobidBiblio).IsEmpty = true
      ∧ ({ BookTitle := "Some Book" } : GrobidBiblio).BookTitle ≠ "" :=
  ⟨rfl, by decide⟩

/-- Claim C5 (amended): `IsEmpty` is true exactly when there are no
authors, no editors, and the twelve fields the source actually checks
(date, title, journal, publisher, volume, issue, pages, doi, pmid,
pmcid, arxivId, url) are all empty; the remaining descriptive and
identifier fields (bookTitle, seriesTitle, journalAbbrev, institution,
firstPage, lastPage, note, unstructured, pii, ark, isTexId, issn,
eissn, id) are not consulted. -/
theorem isEmpty_iff_checked_fields (g : GrobidBiblio) :
    g.IsEmpty = true ↔
      (g.Authors = [] ∧ g.Editors = [] ∧ g.Date = "" ∧ g.Title = "" ∧ g.Journal = ""
        ∧ g.Publisher = "" ∧ g.Volume = "" ∧ g.Issue = "" ∧ g.Pages = "" ∧ g.DOI = ""
        ∧ g.PMID = "" ∧ g.PMCID = "" ∧ g.ArxivID = "" ∧ g.URL = "") := by
  obtain ⟨A, Idx, ID, U, D, T, BT, ST, E, J, JA, P, I, IS, EI, V, Iss, Pg, FP, LP, N,
    DO, PM, PMC, AR, PI, AK, IT, UR⟩ := g
  simp only [GrobidBiblio.IsEmpty, anyString, List.any_cons, List.any_nil, Bool.or_false]
  cases A <;> cases E <;> simp_all [bne_iff_ne]

/-- Address assignments never happen inside `orgNameStep`. -/
theorem orgNameStep_address (ga : GrobidAffiliation) (e : XNode) :
    (orgNameStep ga e).Address = ga.Address := by
  unfold orgNameStep
  split <;> rfl

/-- The `orgName` fold leaves the address of its accumulator unchanged. -/
theorem foldl_orgNameStep_address :
    ∀ (l : List XNode) (ga : GrobidAffiliation),
      (l.foldl orgNameStep ga).Address = ga.Address
  | [], _ => rfl
  | e :: t, ga => by
    rw [List.foldl_cons, foldl_orgNameStep_address t, orgNameStep_address]

/-- The record built from the `orgName` children has no address yet. -/
theorem parseAffiliationOrg_address (n : XNode) :
    (parseAffiliationOrg n).Address = none :=
  foldl_orgNameStep_address _ _

/-- Claim C9 (counterexample): an affiliation node supplying only an
address (no institution, department or laboratory) is collapsed to
absent, although the claim requires any node supplying an address to be
retained. -/
theorem parseAffiliation_address_only_counterexample :
    parseAffiliation affC9 = none ∧ (childrenByTag "address" affC9).length = 1 :=
  ⟨rfl, rfl⟩

/-- Claim C9 (amended): the parsed affiliation is collapsed to absent
exactly when the extracted institution, department and laboratory
fields are all empty; the address is not consulted by this decision
(the emptiness check runs before the address is parsed), so an
address-only affiliation is also collapsed. -/
theorem parseAffiliation_collapse_iff (n : XNode) :
    parseAffiliation n = none ↔
      ((parseAffiliationOrg n).Institution = "" ∧ (parseAffiliationOrg n).Department = ""
        ∧ (parseAffiliationOrg n).Laboratory = "") := by
  unfold parseAffiliation
  have haddr := parseAffiliationOrg_address n
  constructor
  · intro hnone
    by_cases h : (parseAffiliationOrg n).isEmpty
    · have hh := h
      simp only [GrobidAffiliation.isEmpty, haddr, Bool.and_eq_true, beq_iff_eq] at hh
      tauto
    · simp only [h, Bool.false_eq_true, if_false] at hnone
      split at hnone <;> simp at hnone
  · intro ⟨h1, h2, h3⟩
    have h : (parseAffiliationOrg n).isEmpty = true := by
      simp [GrobidAffiliation.isEmpty, h1, h2, h3, haddr]
    simp [h]

/-- Claim C8 (code bug): `parseBiblio` collects no editors from
dedicated editor nodes — neither a structured persName editor nor a
bare-text editor contributes — because the editor and persName queries
filter with `[namespace-uri="NS"]` (no parentheses), which etree reads
as requiring a child element literally tagged namespace-uri; the
fallback itself would synthesize an author from the bare editor node,
and the structured name parses fine, so the records are lost to the
query alone. -/
theorem parseBiblio_editors_dropped :
    (parseBiblio bsC8).Editors = []
      ∧ (descMatches bsC8 "editor" (fun _ => true)).length = 2
      ∧ parseEditor editorBareC8 = [{ FullName := "John Smith" }]
      ∧ (parsePersName persNameC8).Surname = "Smith" :=
  ⟨rfl, rfl, rfl, rfl⟩

end Tei

end Grobid
namespace Grobid

namespace Tei

/-- Claim C7 (counterexample): on a fragment whose first
bibliography-structure node in document order is nested one level
deeper than the second, `ParseCitationList` assigns index 0 to the
shallower, later node — the scan is breadth-first, not document
order. -/
theorem parseCitationList_order_counterexample :
    (ParseCitationList (some refsC7)).map (fun b => (b.Index, b.ID)) = [(0, "y"), (1, "x")]
      ∧ ((docOrderDesc refsC7).filter (fun n => tagOf n == "biblStruct")).map
          (fun n => selectAttrValue n "id" "") = ["x", "y"] :=
  ⟨rfl, rfl⟩

/-- Claim C7 (amended): `ParseCitationList` returns the empty sequence
for an unreadable or rootless fragment, a one-element sequence with
index 0 when the root is itself a bibliography structure, and otherwise
one record per bibliography-structure descendant found by the
breadth-first scan, with indices 0,1,2,... assigned sequentially in
scan order (which is document order for flat fragments but can deviate
from it for nested ones); a fragment with no bibliography structures
yields the empty sequence, not an error. -/
theorem parseCitationList_indices :
    ParseCitationList none = []
      ∧ (∀ root, (tagOf root == "biblStruct") = true →
          ParseCitationList (some root) = [{ parseBiblio root with Index := 0 }])
      ∧ (∀ root, (tagOf root == "biblStruct") = false →
          (ParseCitationList (some root)).map (fun b => b.Index)
              = (List.range (docDescMatches root "biblStruct").length).map Int.ofNat
            ∧ (ParseCitationList (some root)).length
                = (docDescMatches root "biblStruct").length
            ∧ (docDescMatches root "biblStruct" = [] →
                ParseCitationList (some root) = [])) := by
  refine ⟨rfl, ?_, ?_⟩
  · intro root h
    simp [ParseCitationList, h]
  · intro root h
    refine ⟨?_, ?_, ?_⟩
    · simp only [ParseCitationList, h, Bool.false_eq_true, if_false]
      rw [List.map_map]
      have h1 : ((fun b : GrobidBiblio => b.Index) ∘
          (fun p : Nat × XNode => { parseBiblio p.2 with Index := (p.1 : Int) }))
          = Int.ofNat ∘ Prod.fst := by
        funext p; rfl
      rw [h1, ← List.map_map, List.enum_map_fst]
    · simp only [ParseCitationList, h, Bool.false_eq_true, if_false, List.length_map,
        List.enum_length]
    · intro h0
      simp [ParseCitationList, h, h0]

/-- Claim C7 (witness): the amended statement applied to the nested
example fragment: indices come out 0 and 1 for the two records. -/
theorem parseCitationList_indices_witness :
    (tagOf refsC7 == "biblStruct") = false
      ∧ (ParseCitationList (some refsC7)).map (fun b => b.Index) = [0, 1]
      ∧ (ParseCitationList (some refsC7)).length = 2 := by
  have h := parseCitationList_indices.2.2 refsC7 rfl
  exact ⟨rfl, h.1.trans (by rfl), h.2.1.trans (by rfl)⟩

/-- Claim C2 (counterexample): on input the XML reader rejects (e.g.
mismatched tags), `ParseDocument` returns the reader's syntax error,
which is not the InvalidDocument error — so malformed XML is not one of
the InvalidDocument cases. -/
theorem parseDocument_syntax_error_counterexample :
    ParseDocument (.error "XML syntax error on line 1")
        = .error (.xmlSyntax "XML syntax error on line 1")
      ∧ PDErr.xmlSyntax "XML syntax error on line 1" ≠ PDErr.invalidDocument :=
  ⟨rfl, by decide⟩

/-- Claim C2 (amended): `ParseDocument` fails exactly in four cases —
a reader syntax error (returned verbatim, not as InvalidDocument), an
absent root element, an absent TEI header, and an absent processing-tool
annotation (the latter three with InvalidDocument); in every failing
case no partial document is produced, and when all checks pass (and the
annotation carries its version and timestamp attributes, whose absence
would crash the Go code rather than produce an error) a document is
returned whose citation count equals the number of scanned bibliography
structures — zero citations is not an error. -/
theorem parseDocument_error_classification :
    (∀ msg, ParseDocument (.error msg) = .error (.xmlSyntax msg))
      ∧ ParseDocument (.ok none) = .error .invalidDocument
      ∧ (∀ tei, findTeiHeader tei = none →
          ParseDocument (.ok (some tei)) = .error .invalidDocument)
      ∧ (∀ tei header, findTeiHeader tei = some header →
          applicationTagsOf header = [] →
          ParseDocument (.ok (some tei)) = .error .invalidDocument)
      ∧ (∀ tei header app rest vA wA,
          findTeiHeader tei = some header →
          applicationTagsOf header = app :: rest →
          selectAttr app "version" = some vA →
          selectAttr app "when" = some wA →
          ∃ doc, ParseDocument (.ok (some tei)) = .ok doc
            ∧ doc.Citations.length
                = (descMatches2 tei "listBibl" (fun _ => true) "biblStruct"
                    (fun _ => true)).length) := by
  refine ⟨fun msg => rfl, rfl, ?_, ?_, ?_⟩
  · intro tei h
    simp [ParseDocument, h]
  · intro tei header h1 h2
    simp [ParseDocument, h1, h2]
  · intro tei header app rest vA wA h1 h2 h3 h4
    simp only [ParseDocument, h1, h2, h3, h4]
    exact ⟨_, rfl, by simp [List.enum_length]⟩

/-- Claim C2 (witness): the amended statement applied to a minimal
valid document with zero citations: parsing succeeds and the citation
sequence is empty. -/
theorem parseDocument_error_classification_witness :
    findTeiHeader teiC2 = some teiHeaderC2
      ∧ applicationTagsOf teiHeaderC2 = [applicationC2]
      ∧ selectAttr applicationC2 "version" = some ⟨"", "version", "0.7.3"⟩
      ∧ (∃ doc, ParseDocument (.ok (some teiC2)) = .ok doc ∧ doc.Citations.length = 0) := by
  refine ⟨rfl, rfl, rfl, ?_⟩
  obtain ⟨doc, hd, hlen⟩ :=
    parseDocument_error_classification.2.2.2.2 teiC2 teiHeaderC2 applicationC2 []
      ⟨"", "version", "0.7.3"⟩ ⟨"", "when", "2024-01-01"⟩ rfl rfl rfl rfl
  exact ⟨doc, hd, hlen.trans (by rfl)⟩

end Tei

end Grobid
namespace Grobid

namespace Client

/-- Dropping a trailing newline does not change the trimmed content. -/
theorem trimSpaceL_append_nl (l : List Char) :
    trimSpaceL (l ++ ['\n']) = trimSpaceL l := by
  unfold trimSpaceL
  rw [List.dropWhile_append]
  by_cases h : (l.dropWhile Char.isWhitespace).isEmpty
  · have h0 : l.dropWhile Char.isWhitespace = [] := by
      simpa using h
    simp [h0, List.dropWhile]
  · rw [if_neg h, List.reverse_append]
    simp [List.dropWhile]

/-- Splitting never yields an empty list of segments. -/
theorem splitNl_ne_nil : ∀ cs : List Char, splitNl cs ≠ []
  | [] => by simp [splitNl]
  | c :: rest => by
    unfold splitNl
    by_cases h : c = '\n'
    · simp [h]
    · simp only [h, if_false]
      cases hs : splitNl rest <;> simp

/-- The `parseLines` loop computes the specification-side lines, for
any buffered prefix. -/
theorem parseLinesAux_eq : ∀ (cs acc : List Char),
    parseLinesAux acc cs = specLinesFrom acc cs
  | [], acc => by
    simp [parseLinesAux, specLinesFrom, splitNl, consFirst]
  | c :: rest, acc => by
    obtain ⟨sh, st, ht⟩ : ∃ sh st, splitNl rest = sh :: st := by
      cases hs : splitNl rest with
      | nil => exact absurd hs (splitNl_ne_nil rest)
      | cons sh st => exact ⟨sh, st, rfl⟩
    by_cases hc : c = '\n'
    · subst hc
      have ih := parseLinesAux_eq rest []
      by_cases hlen : (trimSpaceL acc).length = 0
      · have hnil : trimSpaceL acc = [] := List.length_eq_zero.mp hlen
        simp [parseLinesAux, specLinesFrom, splitNl, consFirst, ht,
          trimSpaceL_append_nl, ih, hnil]
      · have hne : String.mk (trimSpaceL acc) ≠ "" := by
          have hx : trimSpaceL acc ≠ [] := fun hh => hlen (by simp [hh])
          simpa [String.ext_iff] using hx
        simp [parseLinesAux, specLinesFrom, splitNl, consFirst, ht,
          trimSpaceL_append_nl, ih, hlen, hne]
    · have ih := parseLinesAux_eq rest (acc ++ [c])
      simp only [parseLinesAux, if_neg hc]
      rw [ih]
      simp only [specLinesFrom, splitNl, if_neg hc, ht, consFirst]
      rw [show acc ++ c :: sh = (acc ++ [c]) ++ sh by simp]

/-- Claim C10: `parseLines` returns exactly the whitespace-trimmed,
non-blank lines terminated by a newline character — a final
unterminated line is dropped, and whitespace-only lines are omitted
rather than kept as empty strings. -/
theorem parseLines_spec (cs : List Char) : parseLines cs = specLines cs := by
  rw [parseLines, parseLinesAux_eq]
  obtain ⟨sh, st, ht⟩ : ∃ sh st, splitNl cs = sh :: st := by
    cases hs : splitNl cs with
    | nil => exact absurd hs (splitNl_ne_nil cs)
    | cons sh st => exact ⟨sh, st, rfl⟩
  simp [specLinesFrom, specLines, consFirst, ht]

end Client

end Grobid
namespace Grobid

namespace Client

/-- When no dispatched path is skipped, the handler receives exactly the
per-path results, in dispatch order. -/
theorem handledOf_runPaths_of_noskip (env : Env) (service : String) (opts : Options) :
    ∀ paths : List String,
      (∀ p ∈ paths, (isAlreadyProcessed env p opts && !opts.Force) = false) →
      handledOf (runPaths env service opts paths) = paths.map (resultFor env service)
  | [], _ => rfl
  | p :: t, h => by
    have hp : (isAlreadyProcessed env p opts && !opts.Force) = false := h p (by simp)
    have ht := handledOf_runPaths_of_noskip env service opts t
      (fun q hq => h q (by simp [hq]))
    simp only [runPaths, List.map_cons, handledOf, List.filterMap_cons, processPath, hp,
      Bool.false_eq_true, if_false, Option.map_some'] at ht ⊢
    rw [ht]

/-- Claim C1: in a run over a walk with N eligible files of which none
is skipped as already processed, the handler is invoked exactly N
times — once per dispatched file, whatever the worker count W >= 1 —
and when the submission capability fails for a file, the synthetic
result with status code -1 and the wrapped error is what the handler
receives for it. -/
theorem processDirRecursive_handler_once
    (env : Env) (walk : List WalkItem) (service : String) (numWorkers : Nat)
    (opts : Options) (paths : List String) :
    1 ≤ numWorkers →
    walkCollect env service walk = .ok paths →
    (∀ p ∈ paths, (isAlreadyProcessed env p opts && !opts.Force) = false) →
    handledOf (runPaths env service opts paths) = paths.map (resultFor env service)
      ∧ (handledOf (runPaths env service opts paths)).length = paths.length
      ∧ (∀ p ∈ paths, ∀ msg, submitFor env service p = .fail msg →
          ({ Filename := p, StatusCode := -1,
             Err := some ("process failed: " ++ msg) } : Result)
            ∈ handledOf (runPaths env service opts paths)) := by
  intro _ _ hskip
  have hmain := handledOf_runPaths_of_noskip env service opts paths hskip
  refine ⟨hmain, by rw [hmain, List.length_map], ?_⟩
  intro p hp msg hfail
  have hres : resultFor env service p
      = { Filename := p, StatusCode := -1,
          Err := some ("process failed: " ++ msg) } := by
    simp [resultFor, hfail]
  rw [hmain, ← hres]
  exact List.mem_map_of_mem _ hp

/-- Claim C1 (witness): a two-PDF run in which the submission fails for
the second file still produces two handler invocations, one of them
with the synthetic status -1 result. -/
theorem processDirRecursive_handler_once_witness :
    walkCollect envC1 "processFulltextDocument" walkC1 = .ok ["a.pdf", "b.pdf"]
      ∧ (∀ p ∈ ["a.pdf", "b.pdf"],
          (isAlreadyProcessed envC1 p DefaultOptions && !DefaultOptions.Force) = false)
      ∧ (handledOf (runPaths envC1 "processFulltextDocument" DefaultOptions
          ["a.pdf", "b.pdf"])).length = 2
      ∧ ({ Filename := "b.pdf", StatusCode := -1,
           Err := some ("process failed: connection refused") } : Result)
          ∈ handledOf (runPaths envC1 "processFulltextDocument" DefaultOptions
              ["a.pdf", "b.pdf"]) := by
  have h := processDirRecursive_handler_once envC1 walkC1 "processFulltextDocument" 1
    DefaultOptions ["a.pdf", "b.pdf"] (by decide) rfl (by decide)
  exact ⟨rfl, by decide, h.2.1.trans (by rfl),
    h.2.2 "b.pdf" (by simp) "connection refused" rfl⟩

/-- Claim C3: a walk error is returned as-is; when at least one handler
invocation failed, the aggregate is the full list of the individual
handler errors (each recoverable, in `errors.Join` fashion); when the
walk dispatched nothing or every handler invocation succeeded, the run
reports no error. -/
theorem processDirRecursive_error_aggregation
    (env : Env) (walk : List WalkItem) (service : String) (numWorkers : Nat)
    (opts : Options) :
    (∀ msg, walkCollect env service walk = .error msg →
        ProcessDirRecursive env walk service numWorkers opts = .error msg)
      ∧ (∀ paths, walkCollect env service walk = .ok paths →
          handlerErrsOf (runPaths env service opts paths) ≠ [] →
          ProcessDirRecursive env walk service numWorkers opts
            = .ok (some (handlerErrsOf (runPaths env service opts paths))))
      ∧ (∀ paths, walkCollect env service walk = .ok paths →
          handlerErrsOf (runPaths env service opts paths) = [] →
          ProcessDirRecursive env walk service numWorkers opts = .ok none) := by
  refine ⟨?_, ?_, ?_⟩
  · intro msg h
    simp [ProcessDirRecursive, h]
  · intro paths h hne
    have hlen : 0 < (handlerErrsOf (runPaths env service opts paths)).length :=
      List.length_pos.mpr hne
    simp [ProcessDirRecursive, h, hlen]
  · intro paths h h0
    simp [ProcessDirRecursive, h, h0]

/-- Claim C3 (witness): a run in which the handler fails for one of two
files returns the aggregate holding exactly that error; the instance
also exercises the nil-error case on an empty walk. -/
theorem processDirRecursive_error_aggregation_witness :
    walkCollect envC3 "processFulltextDocument" walkC1 = .ok ["a.pdf", "b.pdf"]
      ∧ ProcessDirRecursive envC3 walkC1 "processFulltextDocument" 2 DefaultOptions
          = .ok (some ["write failed: b"])
      ∧ ProcessDirRecursive envC3 [] "processFulltextDocument" 2 DefaultOptions
          = .ok none := by
  refine ⟨rfl, ?_, ?_⟩
  · have h := (processDirRecursive_error_aggregation envC3 walkC1
      "processFulltextDocument" 2 DefaultOptions).2.1 ["a.pdf", "b.pdf"] rfl (by decide)
    exact h.trans (by rfl)
  · exact (processDirRecursive_error_aggregation envC3 []
      "processFulltextDocument" 2 DefaultOptions).2.2 [] rfl rfl

/-- For a service with no dispatch rule, an error-free walk dispatches
nothing. -/
theorem walkCollect_unknown_service (env : Env) (service : String)
    (h1 : (service == "processFulltextDocument") = false)
    (h2 : (service == "processCitationList") = false)
    (h3 : (service == "processCitationPatentST36") = false) :
    ∀ walk : List WalkItem, (∀ msg, WalkItem.fail msg ∉ walk) →
      walkCollect env service walk = .ok []
  | [], _ => rfl
  | .fail msg :: rest, h => absurd (List.mem_cons_self _ _) (h msg)
  | .entry p d :: rest, h => by
    have hrest := walkCollect_unknown_service env service h1 h2 h3 rest
      (fun m hm => h m (List.mem_cons_of_mem _ hm))
    cases d <;> simp [walkCollect, dispatchOk, h1, h2, h3, hrest]

/-- Claim C4 (counterexample): with an unknown service name the run does
not fail with the InvalidService error — the walk still runs over a
directory holding an eligible-looking PDF, dispatches nothing, and the
whole call returns nil. -/
theorem processDirRecursive_invalid_service_counterexample :
    IsValidService "bogusService" = false
      ∧ envC1.isPDFFile "a.pdf" = true
      ∧ walkCollect envC1 "bogusService" walkC4 = .ok []
      ∧ ProcessDirRecursive envC1 walkC4 "bogusService" 1 DefaultOptions = .ok none :=
  ⟨rfl, rfl, rfl, rfl⟩

/-- Claim C4 (amended): `ProcessDirRecursive` performs no service
validation of its own; for any service without a dispatch rule — in
particular every name outside the valid set — an error-free walk still
runs, no file is dispatched, the handler is never invoked, and the call
returns nil rather than the InvalidService error (which only the
per-file capabilities `ProcessPDF`/`ProcessText` produce). -/
theorem processDirRecursive_unknown_service
    (env : Env) (walk : List WalkItem) (service : String) (numWorkers : Nat)
    (opts : Options) :
    (service == "processFulltextDocument") = false →
    (service == "processCitationList") = false →
    (service == "processCitationPatentST36") = false →
    (∀ msg, WalkItem.fail msg ∉ walk) →
    walkCollect env service walk = .ok []
      ∧ ProcessDirRecursive env walk service numWorkers opts = .ok none := by
  intro h1 h2 h3 hw
  have hwc := walkCollect_unknown_service env service h1 h2 h3 walk hw
  exact ⟨hwc, by simp [ProcessDirRecursive, hwc, runPaths, handlerErrsOf]⟩

/-- Claim C4 (witness): the amended statement applied to an unknown
service over a one-PDF walk. -/
theorem processDirRecursive_unknown_service_witness :
    ("bogusService" == "processFulltextDocument") = false
      ∧ walkCollect envC1 "bogusService" walkC4 = .ok []
      ∧ ProcessDirRecursive envC1 walkC4 "bogusService" 3 DefaultOptions = .ok none := by
  have h := processDirRecursive_unknown_service envC1 walkC4 "bogusService" 3
    DefaultOptions rfl rfl rfl (by intro msg hm; simp [walkC4] at hm)
  exact ⟨rfl, h.1, h.2⟩

/-- A path whose artifact exists is skipped outright when force is
unset. -/
theorem processPath_skip (env : Env) (service : String) (opts : Options) (p : String)
    (hF : opts.Force = false) (hp : isAlreadyProcessed env p opts = true) :
    processPath env service opts p = none := by
  simp [processPath, hp, hF]

/-- When every dispatched path is already processed and force is unset,
nothing is submitted, handled or collected. -/
theorem runPaths_all_skipped (env : Env) (service : String) (opts : Options)
    (hF : opts.Force = false) :
    ∀ paths : List String,
      (∀ p ∈ paths, isAlreadyProcessed env p opts = true) →
      submittedOf (runPaths env service opts paths) = []
        ∧ handledOf (runPaths env service opts paths) = []
        ∧ handlerErrsOf (runPaths env service opts paths) = []
  | [], _ => ⟨rfl, rfl, rfl⟩
  | p :: t, h => by
    have hp := processPath_skip env service opts p hF (h p (by simp))
    have ht := runPaths_all_skipped env service opts hF t
      (fun q hq => h q (by simp [hq]))
    simp only [runPaths, List.map_cons, submittedOf, handledOf, handlerErrsOf,
      List.filterMap_cons, hp] at ht ⊢
    exact ht

/-- Claim C6: with force unset, every dispatched file whose computed
output artifact already exists is skipped before submission — neither
the submission capability nor the handler runs for it — so a second run
over a directory whose first run wrote every artifact submits zero
files and returns nil. -/
theorem processDirRecursive_skip_processed
    (env : Env) (walk : List WalkItem) (service : String) (numWorkers : Nat)
    (opts : Options) (paths : List String) :
    walkCollect env service walk = .ok paths →
    opts.Force = false →
    (∀ p ∈ paths, isAlreadyProcessed env p opts = true) →
    submittedOf (runPaths env service opts paths) = []
      ∧ handledOf (runPaths env service opts paths) = []
      ∧ ProcessDirRecursive env walk service numWorkers opts = .ok none := by
  intro hwc hF hall
  obtain ⟨h1, h2, h3⟩ := runPaths_all_skipped env service opts hF paths hall
  exact ⟨h1, h2, by simp [ProcessDirRecursive, hwc, h3]⟩

/-- Claim C6 (witness): a second run over a one-PDF directory whose
artifact exists dispatches nothing to the submission capability and
returns nil. -/
theorem processDirRecursive_skip_processed_witness :
    walkCollect envC6 "processFulltextDocument" walkC4 = .ok ["a.pdf"]
      ∧ DefaultOptions.Force = false
      ∧ isAlreadyProcessed envC6 "a.pdf" DefaultOptions = true
      ∧ submittedOf (runPaths envC6 "processFulltextDocument" DefaultOptions ["a.pdf"]) = []
      ∧ ProcessDirRecursive envC6 walkC4 "processFulltextDocument" 1 DefaultOptions
          = .ok none := by
  have h := processDirRecursive_skip_processed envC6 walkC4 "processFulltextDocument" 1
    DefaultOptions ["a.pdf"] rfl rfl (by decide)
  exact ⟨rfl, rfl, by decide, h.1, h.2.2⟩

end Client

end Grobid
